import Mathlib

/-!
Shallow embedding of the kubernetes-contexts extension's context
reconciliation engine (`packages/extension/src/manager/contexts-manager.ts`).

The configuration document model mirrors the `KubeConfig` shape used by the
manager (lists of clusters, users, contexts plus a current-context name, as in
the repository's own `KubeConfig` test model).  The manager's operations are
embedded as pure functions; the held in-memory document is passed explicitly,
persistence success is an explicit boolean parameter, and the observable side
effects of one call (change-event emissions, persistence-write attempts and
user-facing notifications) are returned as an ordered list of events.
-/

namespace KubeContexts

/-- Cluster entry of a configuration document (name plus endpoint data). -/
structure Cluster where
  name : String
  server : Option String := none
  skipTLSVerify : Bool := false
  caFile : Option String := none
  caData : Option String := none
deriving DecidableEq, Repr

/-- User (credential) entry of a configuration document. -/
structure User where
  name : String
  certFile : Option String := none
  certData : Option String := none
  keyFile : Option String := none
  keyData : Option String := none
  token : Option String := none
deriving DecidableEq, Repr

/-- Context entry: a named pairing of a cluster name and a user name, with an
optional namespace (`namespace'` stands for the source field `namespace`,
which is a reserved word in Lean). -/
structure Context where
  name : String
  cluster : String
  user : String
  namespace' : Option String := none
deriving DecidableEq, Repr

/-- The configuration document: the `KubeConfig` data held by the manager. -/
structure KubeConfig where
  clusters : List Cluster := []
  users : List User := []
  contexts : List Context := []
  currentContext : String := ""
deriving DecidableEq, Repr

/-- Observable side effects of one manager operation, in order of occurrence:
a change-event emission (`onContextsChange.fire`), a persistence-write attempt
of a document (`saveKubeConfig`), or a user-facing error notification
(`window.showNotification`, recorded by its title). -/
inductive Eff where
  | fire : Eff
  | save : KubeConfig → Eff
  | notify : String → Eff
deriving DecidableEq, Repr

/-- Result of one public manager operation: the document held by the manager
after the call, the ordered observable effects, and the exception escaping to
the caller, if any (`none` when the operation returns normally). -/
structure OpResult where
  doc : KubeConfig
  effs : List Eff
  escaped : Option String
deriving DecidableEq, Repr

/-- Candidate name tried by `findNewContextName`: the template string
`contextName-counter` of the source. -/
def candidateName (contextName : String) (counter : Nat) : String :=
  contextName ++ "-" ++ Nat.repr counter

/-- Fuel-indexed loop of `ContextsManager.findNewContextName`: keep suffixing
`-counter` and incrementing until the candidate is not an existing context
name.  The source's `while` loop always terminates because decimal rendering
of distinct counters is injective; `contexts.length + 1` fuel is enough. -/
def findNewContextNameAux (contexts : List Context) (contextName : String) :
    Nat → Nat → String
  | 0, counter => candidateName contextName counter
  | fuel + 1, counter =>
    let newName := candidateName contextName counter
    if ∃ c ∈ contexts, c.name = newName then
      findNewContextNameAux contexts contextName fuel (counter + 1)
    else newName

/-- Embedding of `ContextsManager.findNewContextName`. -/
def findNewContextName (kubeConfig : KubeConfig) (contextName : String) : String :=
  findNewContextNameAux kubeConfig.contexts contextName (kubeConfig.contexts.length + 1) 1

/-- Embedding of `ContextsManager.removeContext`.  Returns the same document
when the name is not found (the filtered context list has the same length);
otherwise rebuilds the document via `loadFromOptions`, dropping clusters and
users that are no longer referenced but were referenced before. -/
def removeContext (kubeconfig : KubeConfig) (contextName : String) : KubeConfig :=
  let previousContexts := kubeconfig.contexts
  let previousCurrentContextName := kubeconfig.currentContext
  let newContexts := previousContexts.filter fun ctx => ctx.name != contextName
  if newContexts.length = previousContexts.length then
    kubeconfig
  else
    let newCurrentContextName : Option String :=
      if previousCurrentContextName = contextName then none
      else some previousCurrentContextName
    { contexts := newContexts
      clusters := kubeconfig.clusters.filter fun cluster =>
        newContexts.any (fun ctx => ctx.cluster == cluster.name) ||
          !previousContexts.any (fun ctx => ctx.cluster == cluster.name)
      users := kubeconfig.users.filter fun user =>
        newContexts.any (fun ctx => ctx.user == user.name) ||
          !previousContexts.any (fun ctx => ctx.user == user.name)
      currentContext := newCurrentContextName.getD "" }

/-- The replacement context built by `ContextsManager.editContext`: the spread
`namespaceField` keeps the new namespace only when it is not the empty string
(an absent namespace, `none`, also passes the strict inequality test of the
source and overwrites the original), and the explicit `delete` removes the
field when the supplied namespace is the empty string. -/
def editedContextOf (originalContext newContext : Context) : Context :=
  let namespaceField : Option String :=
    if newContext.namespace' ≠ some "" then newContext.namespace'
    else originalContext.namespace'
  let editedContext : Context :=
    { originalContext with
      name := newContext.name
      cluster := newContext.cluster
      user := newContext.user
      namespace' := namespaceField }
  if newContext.namespace' = some "" then { editedContext with namespace' := none }
  else editedContext

/-- Embedding of `ContextsManager.setCurrentContext`.  The source mutates the
held `KubeConfig` in place (`setCurrentContext` on the object) before calling
`saveKubeConfig`; the whole body is wrapped in try/catch, converting any
failure into a notification.  `saveOk` tells whether the persistence write
succeeds. -/
def setCurrentContext (doc : KubeConfig) (contextName : String) (saveOk : Bool) :
    OpResult :=
  let doc1 : KubeConfig := { doc with currentContext := contextName }
  if saveOk then
    { doc := doc1, effs := [Eff.save doc1, Eff.fire], escaped := none }
  else
    { doc := doc1
      effs := [Eff.save doc1, Eff.notify "Error setting current context"]
      escaped := none }

/-- Embedding of `ContextsManager.deleteContextInternal`: replace the held
document by `removeContext`'s result, persist, fire; failures are caught and
converted into a notification (the already-replaced document is kept). -/
def deleteContextInternal (doc : KubeConfig) (contextName : String) (saveOk : Bool) :
    OpResult :=
  let newDoc := removeContext doc contextName
  if saveOk then
    { doc := newDoc, effs := [Eff.save newDoc, Eff.fire], escaped := none }
  else
    { doc := newDoc
      effs := [Eff.save newDoc, Eff.notify "Error deleting context"]
      escaped := none }

/-- Embedding of `ContextsManager.deleteContext`.  When the named context is
the current one, the user is asked for confirmation (`confirmYes` is the
answer); a declined confirmation aborts silently. -/
def deleteContext (doc : KubeConfig) (contextName : String)
    (confirmYes saveOk : Bool) : OpResult :=
  if doc.currentContext = contextName then
    if confirmYes then deleteContextInternal doc contextName saveOk
    else { doc := doc, effs := [], escaped := none }
  else deleteContextInternal doc contextName saveOk

/-- The copy appended by `ContextsManager.duplicateContext`: the original
context under the fresh name. -/
def duplicatedContextOf (originalContext : Context) (newName : String) : Context :=
  { originalContext with name := newName }

/-- Embedding of `ContextsManager.duplicateContext`.  A missing context is a
silent no-op.  Otherwise the new document (same clusters, users and current
context, contexts extended with the renamed copy) replaces the held document
through `update`, which fires the change event, and only then is the document
persisted; the try/catch converts a persistence failure into a notification
but keeps the already-replaced document. -/
def duplicateContext (doc : KubeConfig) (contextName : String) (saveOk : Bool) :
    OpResult :=
  let newName := findNewContextName doc contextName
  match doc.contexts.find? (fun c => c.name == contextName) with
  | none => { doc := doc, effs := [], escaped := none }
  | some originalContext =>
    let newDoc : KubeConfig :=
      { clusters := doc.clusters
        users := doc.users
        currentContext := doc.currentContext
        contexts := doc.contexts ++ [duplicatedContextOf originalContext newName] }
    if saveOk then
      { doc := newDoc, effs := [Eff.fire, Eff.save newDoc], escaped := none }
    else
      { doc := newDoc
        effs := [Eff.fire, Eff.save newDoc, Eff.notify "Error duplicating context"]
        escaped := none }

/-- Embedding of `ContextsManager.editContext`.  A missing context throws
inside the try block, which the catch turns into a notification; otherwise the
rebuilt document (edited context first, all other contexts after it) replaces
the held document through `update` (firing the change event) and is then
persisted, a persistence failure again being caught and notified. -/
def editContext (doc : KubeConfig) (contextName : String) (newContext : Context)
    (saveOk : Bool) : OpResult :=
  match doc.contexts.find? (fun c => c.name == contextName) with
  | none =>
    { doc := doc, effs := [Eff.notify "Error editing context"], escaped := none }
  | some originalContext =>
    let newContexts := doc.contexts.filter fun ctx => ctx.name != contextName
    let newDoc : KubeConfig :=
      { clusters := doc.clusters
        users := doc.users
        currentContext :=
          if doc.currentContext = contextName then newContext.name
          else doc.currentContext
        contexts := editedContextOf originalContext newContext :: newContexts }
    if saveOk then
      { doc := newDoc, effs := [Eff.fire, Eff.save newDoc], escaped := none }
    else
      { doc := newDoc
        effs := [Eff.fire, Eff.save newDoc, Eff.notify "Error editing context"]
        escaped := none }

/-- Embedding of `ContextsManager.getContextFromConfig`. -/
def getContextFromConfig (config : KubeConfig) (contextName : String) :
    Option Context :=
  config.contexts.find? fun ctx => ctx.name == contextName

/-- Embedding of `ContextsManager.getClusterFromConfig`. -/
def getClusterFromConfig (config : KubeConfig) (contextName : String) :
    Option Cluster :=
  match getContextFromConfig config contextName with
  | none => none
  | some context => config.clusters.find? fun c => c.name == context.cluster

/-- Embedding of `ContextsManager.getUserFromConfig`. -/
def getUserFromConfig (config : KubeConfig) (contextName : String) : Option User :=
  match getContextFromConfig config contextName with
  | none => none
  | some context => config.users.find? fun u => u.name == context.user

/-- Import candidate record (`ImportContextInfo` of the channels package; its
model file is not part of the sources here, so its shape is taken from its
uses: the manager pushes name, cluster, user, namespace, server and
hasConflict, and the webview additionally reads an optional
`certificateChanged` flag).  An absent optional field is `none`. -/
structure ImportContextInfo where
  name : String
  cluster : String
  user : String
  namespace' : Option String
  server : Option String
  hasConflict : Bool
  certificateChanged : Option Bool := none
deriving DecidableEq, Repr

/-- Embedding of `ContextsManager.getImportContexts`.  The filesystem check
and the parse are externalized: `fileExists` tells whether `existsSync` holds
and `loadResult` is the outcome of `loadFromFile`.  The source throws on a
missing file and rethrows a parse failure; both errors escape to the caller
(`Except.error`), and on success one candidate per context of the loaded
document is returned, in the loaded document's order. -/
def getImportContexts (live : KubeConfig) (filePath : String) (fileExists : Bool)
    (loadResult : Except String KubeConfig) :
    Except String (List ImportContextInfo) :=
  if !fileExists then
    Except.error ("Kubeconfig file " ++ filePath ++ " does not exist")
  else
    match loadResult with
    | Except.error e =>
      Except.error ("Failed to parse kubeconfig file: " ++ e)
    | Except.ok importConfig =>
      Except.ok (importConfig.contexts.map fun context =>
        let existingContext := getContextFromConfig live context.name
        let hasConflict := existingContext.isSome
        let cluster := importConfig.clusters.find? fun c => c.name == context.cluster
        { name := context.name
          cluster := context.cluster
          user := context.user
          namespace' := context.namespace'
          server := cluster.bind Cluster.server
          hasConflict := hasConflict })

/-- Conflict-resolution strategy for one imported context name. -/
inductive Resolution where
  | keepBoth : Resolution
  | replace : Resolution
deriving DecidableEq, Repr

/-- Final names chosen by `resolveNamingConflicts`. -/
structure FinalNames where
  finalContextName : String
  finalClusterName : String
  finalUserName : String
deriving DecidableEq, Repr

/-- Embedding of `ContextsManager.resolveNamingConflicts`.  The names start as
the source context's names and are reassigned only when a conflicting context
exists and a strategy was supplied; `keep-both` generates a unique context
name against the LIVE document (`this.getKubeConfig()`), and a missing
strategy leaves all names unchanged. -/
def resolveNamingConflicts (live : KubeConfig) (contextName : String)
    (sourceContext : Context) (existingContext : Option Context)
    (conflictResolution : Option Resolution) : FinalNames :=
  if existingContext.isSome then
    match conflictResolution with
    | some Resolution.replace =>
      { finalContextName := contextName
        finalClusterName := sourceContext.cluster
        finalUserName := sourceContext.user }
    | some Resolution.keepBoth =>
      { finalContextName := findNewContextName live contextName
        finalClusterName := sourceContext.cluster
        finalUserName := sourceContext.user }
    | none =>
      { finalContextName := contextName
        finalClusterName := sourceContext.cluster
        finalUserName := sourceContext.user }
  else
    { finalContextName := contextName
      finalClusterName := sourceContext.cluster
      finalUserName := sourceContext.user }

/-- Embedding of `ContextsManager.addContextToKubeconfig`: push the new
context entry onto the working copy's context list. -/
def addContextToKubeconfig (newConfig : KubeConfig) (fn : FinalNames)
    (sourceContext : Context) : KubeConfig :=
  { newConfig with
    contexts := newConfig.contexts ++
      [{ name := fn.finalContextName
         cluster := fn.finalClusterName
         user := fn.finalUserName
         namespace' := sourceContext.namespace' }] }

/-- Embedding of `ContextsManager.processContextImport`.  `live` is the
document held by the manager (used by the keep-both unique-name generation),
`newConfig` the working copy being built and `tempConfig` the loaded foreign
document.  A missing source context is a no-op; a source context whose cluster
or user cannot be resolved in the foreign document throws (the error escapes
the whole import call). -/
def processContextImport (live newConfig tempConfig : KubeConfig)
    (contextName : String) (conflictResolutions : List (String × Resolution)) :
    Except String KubeConfig :=
  match getContextFromConfig tempConfig contextName with
  | none => Except.ok newConfig
  | some sourceContext =>
    match getClusterFromConfig tempConfig contextName,
        getUserFromConfig tempConfig contextName with
    | some sourceCluster, some sourceUser =>
      let conflictResolution := conflictResolutions.lookup contextName
      let existingContext := newConfig.contexts.find? fun ctx => ctx.name == contextName
      let fn := resolveNamingConflicts live contextName sourceContext
        existingContext conflictResolution
      let cfg1 : KubeConfig :=
        match conflictResolution, existingContext with
        | some Resolution.replace, some ec =>
          { newConfig with
            contexts := newConfig.contexts.filter fun ctx => ctx.name != contextName
            clusters := newConfig.clusters.filter fun c => c.name != ec.cluster
            users := newConfig.users.filter fun u => u.name != ec.user }
        | _, _ => newConfig
      let cfg2 := addContextToKubeconfig cfg1 fn sourceContext
      let cfg3 : KubeConfig :=
        if (cfg2.clusters.find? fun c => c.name == fn.finalClusterName).isSome then cfg2
        else { cfg2 with
          clusters := cfg2.clusters ++ [{ sourceCluster with name := fn.finalClusterName }] }
      let cfg4 : KubeConfig :=
        if (cfg3.users.find? fun u => u.name == fn.finalUserName).isSome then cfg3
        else { cfg3 with
          users := cfg3.users ++ [{ sourceUser with name := fn.finalUserName }] }
      Except.ok cfg4
    | _, _ =>
      Except.error ("Missing cluster or user information for context " ++ contextName)

/-- Embedding of `ContextsManager.importContextsFromFile`.  `tempConfig` is
the already-loaded foreign document; the working copy starts as a round-tripped
copy of the live document (`loadFromString` of `exportConfig`, the identity on
the structural fields modelled here).  The selected names are processed in
order; this method has no try/catch, so a missing-reference error from
`processContextImport` escapes, as does a persistence failure, the latter
after `update` has already replaced the held document and fired the change
event. -/
def importContextsFromFile (live tempConfig : KubeConfig)
    (selectedContexts : List String)
    (conflictResolutions : List (String × Resolution)) (saveOk : Bool) : OpResult :=
  let folded := selectedContexts.foldlM
    (fun acc contextName => processContextImport live acc tempConfig contextName conflictResolutions)
    live
  match folded with
  | Except.error e => { doc := live, effs := [], escaped := some e }
  | Except.ok newConfig =>
    if saveOk then
      { doc := newConfig, effs := [Eff.fire, Eff.save newConfig], escaped := none }
    else
      { doc := newConfig
        effs := [Eff.fire, Eff.save newConfig]
        escaped := some "IOError" }

/-! ### Verification helper definitions -/

/-- Decimal digit characters of a natural number, most significant first
(reference rendering used to reason about `Nat.repr`). -/
def decimalDigits (n : Nat) : List Char :=
  if _h : n < 10 then [Nat.digitChar n]
  else decimalDigits (n / 10) ++ [Nat.digitChar (n % 10)]
decreasing_by exact Nat.div_lt_self (by omega) (by omega)

/-- Numeric value of a decimal digit character. -/
def digitVal (c : Char) : Nat := c.toNat - 48

/-- Value of a decimal digit string, read left to right. -/
def decimalVal (l : List Char) : Nat := l.foldl (fun a c => a * 10 + digitVal c) 0

/-- Helper for `fireAfterSave`: scans the trace keeping track of whether a
persistence-write attempt has already occurred. -/
def fireAfterSaveAux (seenSave : Bool) : List Eff → Bool
  | [] => true
  | Eff.fire :: rest => seenSave && fireAfterSaveAux seenSave rest
  | Eff.save _ :: rest => fireAfterSaveAux true rest
  | Eff.notify _ :: rest => fireAfterSaveAux seenSave rest

/-- Trace predicate: every change-event emission in the trace is preceded by
some persistence-write attempt earlier in the same trace. -/
def fireAfterSave (effs : List Eff) : Bool := fireAfterSaveAux false effs

/-! ### Concrete documents used by witnesses and counterexamples -/

/-- Simple live document: one context, one cluster, one user. -/
def exampleDoc : KubeConfig :=
  { clusters := [{ name := "cluster1", server := some "https://cluster1.example.com" }]
    users := [{ name := "user1" }]
    contexts := [{ name := "context1", cluster := "cluster1", user := "user1" }]
    currentContext := "context1" }

/-- Live document whose single context carries a namespace. -/
def exampleDocNs : KubeConfig :=
  { clusters := [{ name := "cluster1", server := some "https://cluster1.example.com" }]
    users := [{ name := "user1" }]
    contexts := [{ name := "context1", cluster := "cluster1", user := "user1",
                   namespace' := some "ns1" }]
    currentContext := "context1" }

/-- Live document with two contexts sharing one cluster and one user. -/
def exampleDocShared : KubeConfig :=
  { clusters := [{ name := "c1", server := some "https://old.example.com" }]
    users := [{ name := "u1" }]
    contexts := [{ name := "A", cluster := "c1", user := "u1" },
                 { name := "B", cluster := "c1", user := "u1" }]
    currentContext := "A" }

/-- Live document holding a context named ctx. -/
def exampleLive : KubeConfig :=
  { clusters := [{ name := "c1", server := some "https://old.example.com" }]
    users := [{ name := "u1" }]
    contexts := [{ name := "ctx", cluster := "c1", user := "u1" }]
    currentContext := "ctx" }

/-- Foreign document holding a context also named ctx but with different
cluster and user entries. -/
def exampleForeign : KubeConfig :=
  { clusters := [{ name := "c2", server := some "https://new.example.com" }]
    users := [{ name := "u2" }]
    contexts := [{ name := "ctx", cluster := "c2", user := "u2" }]
    currentContext := "ctx" }

/-- Foreign document for the shared-reference replace scenario: redefines
context A over fresh cluster and user entries. -/
def exampleForeignA : KubeConfig :=
  { clusters := [{ name := "c2", server := some "https://new.example.com" }]
    users := [{ name := "u2" }]
    contexts := [{ name := "A", cluster := "c2", user := "u2" }]
    currentContext := "A" }

/-- Live document whose user carries an old token. -/
def exampleLiveCert : KubeConfig :=
  { clusters := [{ name := "ec", server := some "https://existing.example.com" }]
    users := [{ name := "eu", token := some "old-token" }]
    contexts := [{ name := "existing-context", cluster := "ec", user := "eu" }]
    currentContext := "existing-context" }

/-- Foreign document reusing the live context name but with different
credential material for the same-named user. -/
def exampleForeignCert : KubeConfig :=
  { clusters := [{ name := "ec", server := some "https://existing.example.com" }]
    users := [{ name := "eu", token := some "new-token" }]
    contexts := [{ name := "existing-context", cluster := "ec", user := "eu" }]
    currentContext := "existing-context" }

/-- Replacement context supplying a non-empty namespace. -/
def exampleEditNs : Context :=
  { name := "context1-edited", cluster := "cluster1", user := "user1",
    namespace' := some "namespace-edited" }

/-- Replacement context supplying the empty-string namespace. -/
def exampleEditEmpty : Context :=
  { name := "context1-edited", cluster := "cluster1", user := "user1",
    namespace' := some "" }

/-! ### Helper lemmas: decimal rendering and unique-name generation -/

theorem toDigitsCore_eq_decimalDigits (fuel : Nat) :
    ∀ (n : Nat) (ds : List Char), 0 < fuel → n < 10 ^ fuel →
      Nat.toDigitsCore 10 fuel n ds = decimalDigits n ++ ds := by
  induction fuel with
  | zero => intro n ds h; omega
  | succ f ih =>
    intro n ds _ hlt
    by_cases h : n / 10 = 0
    · have hn : n < 10 := by omega
      rw [decimalDigits]
      simp [Nat.toDigitsCore, h, hn, Nat.mod_eq_of_lt hn]
    · have hn : ¬n < 10 := by omega
      have hdiv : n / 10 < 10 ^ f := by
        rw [Nat.div_lt_iff_lt_mul (by omega)]
        calc n < 10 ^ (f + 1) := hlt
        _ = 10 ^ f * 10 := by ring
      have hf : 0 < f := by
        by_contra hf0
        have hz : f = 0 := by omega
        subst hz
        simp at hdiv
        omega
      rw [decimalDigits]
      simp only [Nat.toDigitsCore, h, if_false, hn, dif_neg]
      rw [ih (n / 10) _ hf hdiv]
      simp

theorem repr_eq_decimalDigits (n : Nat) : Nat.repr n = (decimalDigits n).asString := by
  have hn : n < 10 ^ (n + 1) := by
    calc n < 10 ^ n := Nat.lt_pow_self (by norm_num) n
    _ ≤ 10 ^ (n + 1) := Nat.pow_le_pow_right (by norm_num) (Nat.le_succ n)
  unfold Nat.repr Nat.toDigits
  rw [toDigitsCore_eq_decimalDigits (n + 1) n [] (by omega) hn]
  simp

theorem digitVal_digitChar (d : Nat) (h : d < 10) :
    digitVal (Nat.digitChar d) = d := by
  interval_cases d <;> rfl

theorem decimalVal_append_single (l : List Char) (c : Char) :
    decimalVal (l ++ [c]) = decimalVal l * 10 + digitVal c := by
  unfold decimalVal
  rw [List.foldl_append]
  rfl

theorem decimalVal_decimalDigits (n : Nat) : decimalVal (decimalDigits n) = n := by
  induction n using Nat.strong_induction_on with
  | _ n ih =>
    rw [decimalDigits]
    by_cases h : n < 10
    · simp only [h, dif_pos]
      unfold decimalVal
      simp [digitVal_digitChar n h]
    · simp only [h, dif_neg, not_false_iff]
      rw [decimalVal_append_single]
      rw [ih (n / 10) (Nat.div_lt_self (by omega) (by omega))]
      rw [digitVal_digitChar (n % 10) (Nat.mod_lt n (by omega))]
      omega

theorem decimalDigits_injective : Function.Injective decimalDigits := by
  intro m n h
  have hm := decimalVal_decimalDigits m
  rw [h, decimalVal_decimalDigits] at hm
  omega

theorem natRepr_injective : Function.Injective Nat.repr := by
  intro m n h
  rw [repr_eq_decimalDigits, repr_eq_decimalDigits] at h
  have hd : decimalDigits m = decimalDigits n := by
    have hdata := congrArg String.data h
    simpa [List.asString] using hdata
  exact decimalDigits_injective hd

theorem string_data_append (a b : String) : (a ++ b).data = a.data ++ b.data := by
  cases a
  cases b
  rfl

theorem candidateName_injOn (base : String) {i j : Nat}
    (h : candidateName base i = candidateName base j) : i = j := by
  unfold candidateName at h
  have h2 := congrArg String.data h
  rw [string_data_append, string_data_append, string_data_append,
    string_data_append] at h2
  have h3 := List.append_cancel_left h2
  apply natRepr_injective
  cases hi : Nat.repr i
  all_goals cases hj : Nat.repr j
  all_goals rw [hi, hj] at h3
  all_goals simp_all

theorem decimalDigits_ne_nil (n : Nat) : decimalDigits n ≠ [] := by
  rw [decimalDigits]
  by_cases h : n < 10 <;> simp [h]

theorem reprLength_pos (n : Nat) : 0 < (Nat.repr n).length := by
  rw [repr_eq_decimalDigits]
  have hne := decimalDigits_ne_nil n
  cases hd : decimalDigits n with
  | nil => exact absurd hd hne
  | cons c l => simp [List.asString, String.length, hd]

theorem candidateName_ne_base (base : String) (k : Nat) :
    candidateName base k ≠ base := by
  intro h
  have h2 := congrArg String.length h
  unfold candidateName at h2
  have hlen : ∀ a b : String, (a ++ b).length = a.length + b.length := by
    intro a b
    cases a with
    | mk la =>
      cases b with
      | mk lb => exact List.length_append la lb
  rw [hlen, hlen] at h2
  have hp := reprLength_pos k
  omega

theorem exists_free_candidate (contexts : List Context) (base : String) :
    ∃ k, 1 ≤ k ∧ k < contexts.length + 2 ∧
      ∀ c ∈ contexts, c.name ≠ candidateName base k := by
  by_contra hcon
  push_neg at hcon
  have hmaps : ∀ k ∈ Finset.Icc 1 (contexts.length + 1),
      candidateName base k ∈ (contexts.map Context.name).toFinset := by
    intro k hk
    simp only [Finset.mem_Icc] at hk
    obtain ⟨c, hc, hcname⟩ := hcon k hk.1 (by omega)
    simp only [List.mem_toFinset, List.mem_map]
    exact ⟨c, hc, hcname⟩
  have hinj : Set.InjOn (candidateName base) (Finset.Icc 1 (contexts.length + 1)) :=
    fun i _ j _ h => candidateName_injOn base h
  have hcard := Finset.card_le_card_of_injOn (candidateName base) hmaps hinj
  rw [Nat.card_Icc] at hcard
  have hle := List.toFinset_card_le (contexts.map Context.name)
  simp only [List.length_map] at hle
  omega

theorem findNewContextNameAux_spec (contexts : List Context) (base : String) :
    ∀ fuel counter,
      (∃ k, counter ≤ k ∧ k < counter + fuel ∧
        ∀ c ∈ contexts, c.name ≠ candidateName base k) →
      ∃ k, counter ≤ k ∧
        findNewContextNameAux contexts base fuel counter = candidateName base k ∧
        (∀ c ∈ contexts, c.name ≠ candidateName base k) ∧
        ∀ j, counter ≤ j → j < k → ∃ c ∈ contexts, c.name = candidateName base j := by
  intro fuel
  induction fuel with
  | zero =>
    intro counter ⟨k, hk1, hk2, _⟩
    omega
  | succ f ih =>
    intro counter ⟨k, hk1, hk2, hk3⟩
    by_cases hc : ∃ c ∈ contexts, c.name = candidateName base counter
    · have hkc : k ≠ counter := by
        intro he
        obtain ⟨c, hcmem, hcname⟩ := hc
        exact hk3 c hcmem (he ▸ hcname)
      obtain ⟨k', hk'1, heq, hfree, hmin⟩ :=
        ih (counter + 1) ⟨k, by omega, by omega, hk3⟩
      refine ⟨k', by omega, ?_, hfree, ?_⟩
      · rw [findNewContextNameAux, if_pos hc]
        exact heq
      · intro j hj1 hj2
        by_cases hjc : j = counter
        · subst hjc
          exact hc
        · exact hmin j (by omega) hj2
    · refine ⟨counter, Nat.le_refl _, ?_, ?_, ?_⟩
      · rw [findNewContextNameAux, if_neg hc]
      · push_neg at hc
        exact hc
      · intro j hj1 hj2
        omega

theorem findNewContextName_fresh (kc : KubeConfig) (base : String) :
    ∃ k, 1 ≤ k ∧ findNewContextName kc base = candidateName base k ∧
      (∀ c ∈ kc.contexts, c.name ≠ candidateName base k) ∧
      ∀ j, 1 ≤ j → j < k → ∃ c ∈ kc.contexts, c.name = candidateName base j := by
  obtain ⟨k, hk1, hk2, hk3⟩ := exists_free_candidate kc.contexts base
  exact findNewContextNameAux_spec kc.contexts base (kc.contexts.length + 1) 1
    ⟨k, hk1, by omega, hk3⟩

/-! ### Claim theorems -/

/-- C8: for every document and base name, `findNewContextName` (the spec's
`uniqueName`) never returns the base name itself: it returns the base suffixed
with `-k` for the least counter `k ≥ 1` whose candidate is not an existing
context name, the candidates being tried in the order base-1, base-2, and so
on; consequently duplicating context1 twice on a document containing only
context1 yields contexts named context1, context1-1, context1-2, in that
order. -/
theorem findNewContextName_spec (kc : KubeConfig) (base : String) :
    (findNewContextName kc base ≠ base ∧
      ∃ k, 1 ≤ k ∧ findNewContextName kc base = candidateName base k ∧
        (∀ c ∈ kc.contexts, c.name ≠ candidateName base k) ∧
        ∀ j, 1 ≤ j → j < k → ∃ c ∈ kc.contexts, c.name = candidateName base j) ∧
    ((duplicateContext (duplicateContext exampleDoc "context1" true).doc
        "context1" true).doc.contexts.map Context.name =
      ["context1", "context1-1", "context1-2"]) := by
  constructor
  · obtain ⟨k, hk1, hk2, hk3, hk4⟩ := findNewContextName_fresh kc base
    refine ⟨?_, k, hk1, hk2, hk3, hk4⟩
    rw [hk2]
    exact candidateName_ne_base base k
  · decide

/-- Witness for C8: on the concrete example document the generated name is the
base suffixed with -1 and differs from the base. -/
theorem findNewContextName_spec_witness :
    findNewContextName exampleDoc "context1" = "context1-1" ∧
    findNewContextName exampleDoc "context1" ≠ "context1" :=
  ⟨by decide, (findNewContextName_spec exampleDoc "context1").1.1⟩

theorem removeContext_of_absent (d : KubeConfig) (n : String)
    (h : ∀ ctx ∈ d.contexts, ctx.name ≠ n) : removeContext d n = d := by
  have hf : d.contexts.filter (fun ctx => ctx.name != n) = d.contexts :=
    List.filter_eq_self.mpr fun a ha => by simpa using h a ha
  unfold removeContext
  simp only [hf]
  simp

theorem removeContext_of_found (d : KubeConfig) (n : String)
    (h : ∃ ctx ∈ d.contexts, ctx.name = n) :
    removeContext d n =
      { contexts := d.contexts.filter fun ctx => ctx.name != n
        clusters := d.clusters.filter fun cluster =>
          (d.contexts.filter fun ctx => ctx.name != n).any
              (fun ctx => ctx.cluster == cluster.name) ||
            !d.contexts.any (fun ctx => ctx.cluster == cluster.name)
        users := d.users.filter fun user =>
          (d.contexts.filter fun ctx => ctx.name != n).any
              (fun ctx => ctx.user == user.name) ||
            !d.contexts.any (fun ctx => ctx.user == user.name)
        currentContext :=
          (if d.currentContext = n then none else some d.currentContext).getD "" } := by
  have hlt : (d.contexts.filter fun ctx => ctx.name != n).length < d.contexts.length := by
    rw [List.length_filter_lt_length_iff_exists]
    obtain ⟨ctx, hmem, hname⟩ := h
    exact ⟨ctx, hmem, by simp [hname]⟩
  unfold removeContext
  simp only [if_neg (Nat.ne_of_lt hlt)]

/-- C4: for every document d and name n, if n is not the name of any context
in d then removeContext d n equals d; otherwise the result has the named
context removed, clusters filtered to drop exactly those that are referenced
by no surviving context yet were referenced by at least one context before
removal, users filtered symmetrically, and the current context cleared to the
empty string exactly when it equalled n. -/
theorem removeContext_spec (d : KubeConfig) (n : String) :
    ((∀ ctx ∈ d.contexts, ctx.name ≠ n) → removeContext d n = d) ∧
    ((∃ ctx ∈ d.contexts, ctx.name = n) →
      (removeContext d n).contexts = d.contexts.filter (fun ctx => ctx.name != n) ∧
      (removeContext d n).clusters = d.clusters.filter (fun cluster =>
        decide ((∃ surv ∈ d.contexts.filter (fun c2 : Context => c2.name != n),
            surv.cluster = cluster.name) ∨
          ¬∃ pre ∈ d.contexts, pre.cluster = cluster.name)) ∧
      (removeContext d n).users = d.users.filter (fun user =>
        decide ((∃ surv ∈ d.contexts.filter (fun c2 : Context => c2.name != n),
            surv.user = user.name) ∨
          ¬∃ pre ∈ d.contexts, pre.user = user.name)) ∧
      (removeContext d n).currentContext =
        (if d.currentContext = n then "" else d.currentContext)) := by
  refine ⟨removeContext_of_absent d n, fun h => ?_⟩
  rw [removeContext_of_found d n h]
  refine ⟨rfl, ?_, ?_, ?_⟩
  · apply List.filter_congr
    intro cluster _
    rw [Bool.eq_iff_iff]
    simp only [Bool.or_eq_true, Bool.not_eq_true', List.any_eq_false, List.any_eq_true,
      List.mem_filter, bne_iff_ne, beq_iff_eq, decide_eq_true_eq]
    aesop
  · apply List.filter_congr
    intro user _
    rw [Bool.eq_iff_iff]
    simp only [Bool.or_eq_true, Bool.not_eq_true', List.any_eq_false, List.any_eq_true,
      List.mem_filter, bne_iff_ne, beq_iff_eq, decide_eq_true_eq]
    aesop
  · by_cases hc : d.currentContext = n <;> simp [hc]

/-- Witness for C4: identity on a document without the name, and clearing of
the current context on a document with it. -/
theorem removeContext_spec_witness :
    ((∀ ctx ∈ exampleDoc.contexts, ctx.name ≠ "missing") ∧
      removeContext exampleDoc "missing" = exampleDoc) ∧
    ((∃ ctx ∈ exampleDoc.contexts, ctx.name = "context1") ∧
      (removeContext exampleDoc "context1").currentContext =
        (if exampleDoc.currentContext = "context1" then "" else exampleDoc.currentContext)) :=
  ⟨⟨by decide, (removeContext_spec exampleDoc "missing").1 (by decide)⟩,
    ⟨by decide, ((removeContext_spec exampleDoc "context1").2 (by decide)).2.2.2⟩⟩

/-! ### Helper lemmas: structure of the edit and duplicate results -/

theorem editedContextOf_fields (orig nc : Context) :
    (editedContextOf orig nc).name = nc.name ∧
    (editedContextOf orig nc).cluster = nc.cluster ∧
    (editedContextOf orig nc).user = nc.user ∧
    (editedContextOf orig nc).namespace' =
      (if nc.namespace' = some "" then none else nc.namespace') := by
  unfold editedContextOf
  by_cases h : nc.namespace' = some "" <;> simp [h]

theorem editContext_doc (d : KubeConfig) (n : String) (nc : Context)
    (saveOk : Bool) (orig : Context)
    (hfind : d.contexts.find? (fun c => c.name == n) = some orig) :
    (editContext d n nc saveOk).doc =
      { clusters := d.clusters
        users := d.users
        currentContext := if d.currentContext = n then nc.name else d.currentContext
        contexts := editedContextOf orig nc ::
          d.contexts.filter fun c => c.name != n } := by
  unfold editContext
  rw [hfind]
  cases saveOk <;> rfl

theorem duplicateContext_doc (d : KubeConfig) (n : String) (saveOk : Bool)
    (orig : Context)
    (hfind : d.contexts.find? (fun c => c.name == n) = some orig) :
    (duplicateContext d n saveOk).doc =
      { clusters := d.clusters
        users := d.users
        currentContext := d.currentContext
        contexts := d.contexts ++
          [duplicatedContextOf orig (findNewContextName d n)] } := by
  unfold duplicateContext
  rw [hfind]
  cases saveOk <;> rfl

/-- C9: for every editContext call on an existing context, the replacement
context carries the new name, cluster and user; a supplied empty-string
namespace yields a replacement with no namespace at all, even when the
original had one, and a supplied non-empty namespace overwrites the
original. -/
theorem editContext_namespace_spec (d : KubeConfig) (n : String) (nc : Context)
    (saveOk : Bool) (orig : Context)
    (hfind : d.contexts.find? (fun c => c.name == n) = some orig) :
    ∃ ed rest, (editContext d n nc saveOk).doc.contexts = ed :: rest ∧
      ed.name = nc.name ∧ ed.cluster = nc.cluster ∧ ed.user = nc.user ∧
      (nc.namespace' = some "" → ed.namespace' = none) ∧
      ∀ s, nc.namespace' = some s → s ≠ "" → ed.namespace' = some s := by
  obtain ⟨h1, h2, h3, h4⟩ := editedContextOf_fields orig nc
  refine ⟨editedContextOf orig nc, d.contexts.filter (fun c => c.name != n), ?_,
    h1, h2, h3, ?_, ?_⟩
  · rw [editContext_doc d n nc saveOk orig hfind]
  · intro he
    rw [h4, if_pos he]
  · intro s hs hne
    rw [h4, if_neg (by simp [hs, hne]), hs]

/-- Witness for C9: editing the namespaced example context with an
empty-string namespace produces a replacement without namespace. -/
theorem editContext_namespace_spec_witness :
    (exampleDocNs.contexts.find? (fun c => c.name == "context1") =
      some { name := "context1", cluster := "cluster1", user := "user1",
             namespace' := some "ns1" }) ∧
    ∃ ed rest,
      (editContext exampleDocNs "context1" exampleEditEmpty true).doc.contexts =
        ed :: rest ∧
      ed.name = exampleEditEmpty.name ∧ ed.cluster = exampleEditEmpty.cluster ∧
      ed.user = exampleEditEmpty.user ∧
      (exampleEditEmpty.namespace' = some "" → ed.namespace' = none) ∧
      ∀ s, exampleEditEmpty.namespace' = some s → s ≠ "" → ed.namespace' = some s :=
  ⟨by decide,
    editContext_namespace_spec exampleDocNs "context1" exampleEditEmpty true
      { name := "context1", cluster := "cluster1", user := "user1",
        namespace' := some "ns1" } (by decide)⟩

/-- C10: a successful editContext places the edited context at the front of
the resulting context list, the remaining contexts following in their original
relative order (the original position is not kept), whereas duplicateContext
appends the copy at the end and leaves every existing entry in place. -/
theorem editContext_position_spec (d : KubeConfig) (n dupName : String)
    (nc : Context) (saveOk : Bool) (orig origDup : Context)
    (hfind : d.contexts.find? (fun c => c.name == n) = some orig)
    (hfindDup : d.contexts.find? (fun c => c.name == dupName) = some origDup) :
    (editContext d n nc saveOk).doc.contexts =
      editedContextOf orig nc :: d.contexts.filter (fun c => c.name != n) ∧
    (duplicateContext d dupName saveOk).doc.contexts =
      d.contexts ++ [duplicatedContextOf origDup (findNewContextName d dupName)] := by
  constructor
  · rw [editContext_doc d n nc saveOk orig hfind]
  · rw [duplicateContext_doc d dupName saveOk origDup hfindDup]

/-- Witness for C10 on the two-context example document: editing B moves it
to the front, duplicating A appends at the end. -/
theorem editContext_position_spec_witness :
    (editContext exampleDocShared "B" exampleEditNs true).doc.contexts =
      editedContextOf { name := "B", cluster := "c1", user := "u1" } exampleEditNs ::
        exampleDocShared.contexts.filter (fun c => c.name != "B") ∧
    (duplicateContext exampleDocShared "A" true).doc.contexts =
      exampleDocShared.contexts ++
        [duplicatedContextOf { name := "A", cluster := "c1", user := "u1" }
          (findNewContextName exampleDocShared "A")] :=
  editContext_position_spec exampleDocShared "B" "A" exampleEditNs true
    { name := "B", cluster := "c1", user := "u1" }
    { name := "A", cluster := "c1", user := "u1" } (by decide) (by decide)

/-- C1 counterexample: setCurrentContext with a failing persistence write
raises no exception and emits the error notification, yet the document held
after the call differs from the document held before it, refuting the claim
that the in-memory document is left unchanged on failure. -/
theorem mutating_rollback_cex :
    (setCurrentContext exampleDoc "context2" false).escaped = none ∧
    Eff.notify "Error setting current context" ∈
      (setCurrentContext exampleDoc "context2" false).effs ∧
    (setCurrentContext exampleDoc "context2" false).doc ≠ exampleDoc := by decide

/-- C1 amended: each of the four mutating operations raises no exception to
its caller and converts a persistence failure into a user-facing
notification, but on such a failure the document held by the engine is the
newly computed document, not the document held before the call: the mutation
is retained, not rolled back. -/
theorem mutating_ops_failure_spec (d : KubeConfig) (n : String) (nc : Context)
    (confirmYes : Bool) :
    ((setCurrentContext d n false).escaped = none ∧
      (setCurrentContext d n false).doc = { d with currentContext := n } ∧
      Eff.notify "Error setting current context" ∈
        (setCurrentContext d n false).effs) ∧
    ((deleteContext d n confirmYes false).escaped = none ∧
      (d.currentContext = n → confirmYes = false →
        (deleteContext d n confirmYes false).doc = d) ∧
      ((d.currentContext ≠ n ∨ confirmYes = true) →
        (deleteContext d n confirmYes false).doc = removeContext d n ∧
        Eff.notify "Error deleting context" ∈
          (deleteContext d n confirmYes false).effs)) ∧
    ((duplicateContext d n false).escaped = none ∧
      (∀ orig, d.contexts.find? (fun c => c.name == n) = some orig →
        (duplicateContext d n false).doc =
          { clusters := d.clusters
            users := d.users
            currentContext := d.currentContext
            contexts := d.contexts ++
              [duplicatedContextOf orig (findNewContextName d n)] } ∧
        Eff.notify "Error duplicating context" ∈ (duplicateContext d n false).effs) ∧
      (d.contexts.find? (fun c => c.name == n) = none →
        (duplicateContext d n false).doc = d)) ∧
    ((editContext d n nc false).escaped = none ∧
      (∀ orig, d.contexts.find? (fun c => c.name == n) = some orig →
        (editContext d n nc false).doc =
          { clusters := d.clusters
            users := d.users
            currentContext := if d.currentContext = n then nc.name else d.currentContext
            contexts := editedContextOf orig nc ::
              d.contexts.filter fun c => c.name != n } ∧
        Eff.notify "Error editing context" ∈ (editContext d n nc false).effs) ∧
      (d.contexts.find? (fun c => c.name == n) = none →
        (editContext d n nc false).doc = d)) := by
  refine ⟨⟨rfl, rfl, ?_⟩, ⟨?_, ?_, ?_⟩, ⟨?_, ?_, ?_⟩, ⟨?_, ?_, ?_⟩⟩
  · simp [setCurrentContext]
  · unfold deleteContext deleteContextInternal
    by_cases hc : d.currentContext = n <;> cases confirmYes <;> simp [hc]
  · intro hc hy
    unfold deleteContext
    rw [if_pos hc, hy, if_neg (by simp)]
  · intro hc
    unfold deleteContext deleteContextInternal
    rcases hc with hc | hy
    · rw [if_neg hc]
      simp
    · by_cases hcn : d.currentContext = n <;> simp [hcn, hy]
  · unfold duplicateContext
    cases hf : d.contexts.find? (fun c => c.name == n) <;> simp [hf]
  · intro orig hfind
    constructor
    · exact duplicateContext_doc d n false orig hfind
    · unfold duplicateContext
      rw [hfind]
      simp
  · intro hnone
    unfold duplicateContext
    rw [hnone]
  · unfold editContext
    cases hf : d.contexts.find? (fun c => c.name == n) <;> simp [hf]
  · intro orig hfind
    constructor
    · exact editContext_doc d n nc false orig hfind
    · unfold editContext
      rw [hfind]
      simp
  · intro hnone
    unfold editContext
    rw [hnone]

/-- Witness for C1 at concrete inputs: the amended statement instantiated on
the example document, with the delete branch exercised. -/
theorem mutating_ops_failure_spec_witness :
    ((exampleDoc.currentContext ≠ "context1" ∨ true = true) →
      (deleteContext exampleDoc "context1" true false).doc =
        removeContext exampleDoc "context1" ∧
      Eff.notify "Error deleting context" ∈
        (deleteContext exampleDoc "context1" true false).effs) ∧
    (setCurrentContext exampleDoc "context1" false).doc =
      { exampleDoc with currentContext := "context1" } :=
  ⟨(mutating_ops_failure_spec exampleDoc "context1" exampleEditNs true).2.1.2.2,
    (mutating_ops_failure_spec exampleDoc "context1" exampleEditNs true).1.2.1⟩

/-- C7 counterexample: a successful duplicateContext emits the change event
before its persistence write (the event is fired by update, the write happens
afterwards), so the emission is preceded by no persistence write at all,
refuting the claim that the event is raised only after persistence succeeded. -/
theorem change_event_order_cex :
    (duplicateContext exampleDoc "context1" true).escaped = none ∧
    fireAfterSave (duplicateContext exampleDoc "context1" true).effs = false := by
  decide

/-- C7 amended: setCurrentContext and the delete path raise the change event
exactly once and only after the persistence write succeeded (no event on a
failed write), but duplicateContext, editContext and importContextsFromFile
raise it exactly once immediately after replacing the in-memory document and
before the persistence write, even when that write subsequently fails. -/
theorem change_event_order_spec (d : KubeConfig) (n : String) (nc : Context)
    (temp : KubeConfig) (sel : List String)
    (rs : List (String × Resolution)) :
    ((setCurrentContext d n true).effs =
        [Eff.save { d with currentContext := n }, Eff.fire] ∧
      fireAfterSave (setCurrentContext d n true).effs = true ∧
      (setCurrentContext d n false).effs.count Eff.fire = 0) ∧
    ((deleteContextInternal d n true).effs =
        [Eff.save (removeContext d n), Eff.fire] ∧
      fireAfterSave (deleteContextInternal d n true).effs = true ∧
      (deleteContextInternal d n false).effs.count Eff.fire = 0) ∧
    (∀ orig saveOk, d.contexts.find? (fun c => c.name == n) = some orig →
      (duplicateContext d n saveOk).effs.count Eff.fire = 1 ∧
      fireAfterSave (duplicateContext d n saveOk).effs = false) ∧
    (∀ orig saveOk, d.contexts.find? (fun c => c.name == n) = some orig →
      (editContext d n nc saveOk).effs.count Eff.fire = 1 ∧
      fireAfterSave (editContext d n nc saveOk).effs = false) ∧
    (∀ newCfg saveOk,
      sel.foldlM (fun acc c => processContextImport d acc temp c rs) d =
        Except.ok newCfg →
      (importContextsFromFile d temp sel rs saveOk).effs =
        [Eff.fire, Eff.save newCfg] ∧
      (importContextsFromFile d temp sel rs saveOk).effs.count Eff.fire = 1 ∧
      fireAfterSave (importContextsFromFile d temp sel rs saveOk).effs = false) ∧
    (∀ e saveOk,
      sel.foldlM (fun acc c => processContextImport d acc temp c rs) d =
        Except.error e →
      (importContextsFromFile d temp sel rs saveOk).effs = []) := by
  refine ⟨⟨rfl, rfl, ?_⟩, ⟨rfl, rfl, ?_⟩, ?_, ?_, ?_, ?_⟩
  · simp [setCurrentContext, fireAfterSave, fireAfterSaveAux]
  · simp [deleteContextInternal, fireAfterSave, fireAfterSaveAux]
  · intro orig saveOk hfind
    unfold duplicateContext
    rw [hfind]
    cases saveOk <;> simp [fireAfterSave, fireAfterSaveAux]
  · intro orig saveOk hfind
    unfold editContext
    rw [hfind]
    cases saveOk <;> simp [fireAfterSave, fireAfterSaveAux]
  · intro newCfg saveOk hok
    unfold importContextsFromFile
    rw [hok]
    cases saveOk <;> simp [fireAfterSave, fireAfterSaveAux]
  · intro e saveOk herr
    unfold importContextsFromFile
    rw [herr]

/-- Witness for C7 at concrete inputs: the successful set-current trace fires
after the save, while the successful duplicate trace fires exactly once but
not after a save. -/
theorem change_event_order_spec_witness :
    fireAfterSave (setCurrentContext exampleDoc "context1" true).effs = true ∧
    ((duplicateContext exampleDoc "context1" true).effs.count Eff.fire = 1 ∧
      fireAfterSave (duplicateContext exampleDoc "context1" true).effs = false) :=
  ⟨(change_event_order_spec exampleDoc "context1" exampleEditNs exampleForeign []
      []).1.2.1,
    (change_event_order_spec exampleDoc "context1" exampleEditNs exampleForeign []
      []).2.2.1
      { name := "context1", cluster := "cluster1", user := "user1" } true (by decide)⟩

/-- C2 counterexample: importing a context whose name conflicts with the live
document while supplying no resolution entry does not fall back to keep-both:
the context is appended under its original name and the resulting document
holds two contexts with the same name. -/
theorem import_default_resolution_cex :
    (importContextsFromFile exampleLive exampleForeign ["ctx"] [] true).doc.contexts.map
        Context.name = ["ctx", "ctx"] ∧
    ¬((importContextsFromFile exampleLive exampleForeign ["ctx"] [] true).doc.contexts.map
        Context.name).Nodup := by decide

theorem resolveNamingConflicts_none (live : KubeConfig) (n : String)
    (sc : Context) (ex : Option Context) :
    resolveNamingConflicts live n sc ex none =
      { finalContextName := n, finalClusterName := sc.cluster,
        finalUserName := sc.user } := by
  unfold resolveNamingConflicts
  by_cases h : ex.isSome <;> simp [h]

/-- C2 amended: when the selected context name conflicts with the working copy
and the caller supplied no resolution entry for it, processContextImport keeps
all original names (no unique name is generated): the source context is
appended under the conflicting name itself, so the resulting working copy
contains at least two contexts with that name, and Cluster/User entries are
appended only if no entry with that name already exists. -/
theorem processContextImport_no_resolution_spec (live newConfig temp : KubeConfig)
    (n : String) (rs : List (String × Resolution)) (sc : Context) (scl : Cluster)
    (su : User)
    (hsc : getContextFromConfig temp n = some sc)
    (hcl : getClusterFromConfig temp n = some scl)
    (hsu : getUserFromConfig temp n = some su)
    (hres : rs.lookup n = none)
    (hconf : ∃ c ∈ newConfig.contexts, c.name = n) :
    processContextImport live newConfig temp n rs = Except.ok
      ({ clusters :=
           if (newConfig.clusters.find? fun c => c.name == sc.cluster).isSome
           then newConfig.clusters
           else newConfig.clusters ++ [{ scl with name := sc.cluster }]
         users :=
           if (newConfig.users.find? fun u => u.name == sc.user).isSome
           then newConfig.users
           else newConfig.users ++ [{ su with name := sc.user }]
         contexts := newConfig.contexts ++
           [{ name := n, cluster := sc.cluster, user := sc.user,
              namespace' := sc.namespace' }]
         currentContext := newConfig.currentContext } : KubeConfig) ∧
    2 ≤ ((newConfig.contexts ++
        [({ name := n, cluster := sc.cluster, user := sc.user,
            namespace' := sc.namespace' } : Context)]).filter
          fun c => c.name == n).length := by
  constructor
  · unfold processContextImport
    rw [hsc, hcl, hsu, hres]
    simp only [resolveNamingConflicts_none]
    cases hex : newConfig.contexts.find? fun ctx => ctx.name == n <;>
      · simp only [addContextToKubeconfig]
        by_cases h1 : (List.find? (fun c => c.name == sc.cluster) newConfig.clusters).isSome <;>
          by_cases h2 : (List.find? (fun u => u.name == sc.user) newConfig.users).isSome <;>
            simp [h1, h2]
  · rw [List.filter_append]
    rw [List.length_append]
    obtain ⟨c, hc, hname⟩ := hconf
    have hmem : c ∈ newConfig.contexts.filter fun c2 => c2.name == n :=
      List.mem_filter.mpr ⟨hc, by simp [hname]⟩
    have hpos : 0 < (newConfig.contexts.filter fun c2 => c2.name == n).length :=
      List.length_pos.mpr (List.ne_nil_of_mem hmem)
    have hone : (List.filter (fun c2 => c2.name == n)
        [({ name := n, cluster := sc.cluster, user := sc.user,
            namespace' := sc.namespace' } : Context)]).length = 1 := by
      simp
    omega

/-- Witness for C2 at the concrete conflicting import with no resolution
entry. -/
theorem processContextImport_no_resolution_spec_witness :
    processContextImport exampleLive exampleLive exampleForeign "ctx" [] = Except.ok
      ({ clusters :=
           if (exampleLive.clusters.find? fun c => c.name == "c2").isSome
           then exampleLive.clusters
           else exampleLive.clusters ++
             [{ name := "c2", server := some "https://new.example.com" }]
         users :=
           if (exampleLive.users.find? fun u => u.name == "u2").isSome
           then exampleLive.users
           else exampleLive.users ++ [{ name := "u2" }]
         contexts := exampleLive.contexts ++
           [{ name := "ctx", cluster := "c2", user := "u2", namespace' := none }]
         currentContext := exampleLive.currentContext } : KubeConfig) ∧
    2 ≤ ((exampleLive.contexts ++
        [({ name := "ctx", cluster := "c2", user := "u2",
            namespace' := none } : Context)]).filter
          fun c => c.name == "ctx").length :=
  processContextImport_no_resolution_spec exampleLive exampleLive exampleForeign
    "ctx" [] { name := "ctx", cluster := "c2", user := "u2" }
    { name := "c2", server := some "https://new.example.com" } { name := "u2" }
    (by decide) (by decide) (by decide) (by decide) (by decide)

/-- C5 counterexample: importing context A with the replace resolution removes
cluster c1 from the working copy although context B still references it, so
the resulting document contains a context referencing a cluster entry that the
replace step removed. -/
theorem import_replace_dangling_cex :
    ((importContextsFromFile exampleDocShared exampleForeignA ["A"]
        [("A", Resolution.replace)] true).doc.contexts.any
      fun c => c.name == "B" && c.cluster == "c1") = true ∧
    ((importContextsFromFile exampleDocShared exampleForeignA ["A"]
        [("A", Resolution.replace)] true).doc.clusters.any
      fun cl => cl.name == "c1") = false := by decide

theorem clusterStep_users (x : KubeConfig) (clname : String) (scl : Cluster) :
    (if (x.clusters.find? fun c => c.name == clname).isSome then x
      else { x with clusters := x.clusters ++ [{ scl with name := clname }] }).users =
      x.users := by
  split <;> rfl

theorem clusterStep_contexts (x : KubeConfig) (clname : String) (scl : Cluster) :
    (if (x.clusters.find? fun c => c.name == clname).isSome then x
      else { x with clusters := x.clusters ++ [{ scl with name := clname }] }).contexts =
      x.contexts := by
  split <;> rfl

theorem clusterStep_mem (x : KubeConfig) (clname : String) (scl : Cluster) :
    ∃ cl ∈ (if (x.clusters.find? fun c => c.name == clname).isSome then x
      else { x with clusters := x.clusters ++ [{ scl with name := clname }] }).clusters,
      cl.name = clname := by
  by_cases h : (x.clusters.find? fun c => c.name == clname).isSome
  · rw [if_pos h]
    obtain ⟨cl, hcl⟩ := Option.isSome_iff_exists.mp h
    exact ⟨cl, List.mem_of_find?_eq_some hcl, by simpa using List.find?_some hcl⟩
  · rw [if_neg h]
    refine ⟨{ scl with name := clname }, ?_, rfl⟩
    simp

theorem userStep_clusters (x : KubeConfig) (uname : String) (su : User) :
    (if (x.users.find? fun u => u.name == uname).isSome then x
      else { x with users := x.users ++ [{ su with name := uname }] }).clusters =
      x.clusters := by
  split <;> rfl

theorem userStep_contexts (x : KubeConfig) (uname : String) (su : User) :
    (if (x.users.find? fun u => u.name == uname).isSome then x
      else { x with users := x.users ++ [{ su with name := uname }] }).contexts =
      x.contexts := by
  split <;> rfl

theorem userStep_mem (x : KubeConfig) (uname : String) (su : User) :
    ∃ u ∈ (if (x.users.find? fun u => u.name == uname).isSome then x
      else { x with users := x.users ++ [{ su with name := uname }] }).users,
      u.name = uname := by
  by_cases h : (x.users.find? fun u => u.name == uname).isSome
  · rw [if_pos h]
    obtain ⟨u, hu⟩ := Option.isSome_iff_exists.mp h
    exact ⟨u, List.mem_of_find?_eq_some hu, by simpa using List.find?_some hu⟩
  · rw [if_neg h]
    refine ⟨{ su with name := uname }, ?_, rfl⟩
    simp

/-- C5 amended: a context entry appended by processContextImport always
references a cluster name and a user name that exist in its resulting working
copy, and the copy appended by duplicateContext carries exactly the original
context's cluster and user references (so they resolve whenever the
original's did); however, contexts merely surviving a replace resolution may
be left referencing removed entries, and editContext installs the
caller-supplied references unvalidated. -/
theorem engine_created_refs_spec (live newConfig temp : KubeConfig) (n : String)
    (rs : List (String × Resolution)) (cfg : KubeConfig) (sc : Context)
    (d : KubeConfig) (dupName : String) (saveOk : Bool) (orig : Context) :
    (processContextImport live newConfig temp n rs = Except.ok cfg →
      getContextFromConfig temp n = some sc →
      ∃ pre newCtx, cfg.contexts = pre ++ [newCtx] ∧
        (∃ cl ∈ cfg.clusters, cl.name = newCtx.cluster) ∧
        (∃ u ∈ cfg.users, u.name = newCtx.user)) ∧
    (d.contexts.find? (fun c => c.name == dupName) = some orig →
      (duplicateContext d dupName saveOk).doc.contexts =
        d.contexts ++ [duplicatedContextOf orig (findNewContextName d dupName)] ∧
      (duplicatedContextOf orig (findNewContextName d dupName)).cluster =
        orig.cluster ∧
      (duplicatedContextOf orig (findNewContextName d dupName)).user =
        orig.user) := by
  constructor
  · intro hok hsc
    unfold processContextImport at hok
    rw [hsc] at hok
    cases hclr : getClusterFromConfig temp n with
    | none =>
      rw [hclr] at hok
      cases husr : getUserFromConfig temp n <;> rw [husr] at hok <;> simp at hok
    | some scl =>
      rw [hclr] at hok
      cases husr : getUserFromConfig temp n with
      | none =>
        rw [husr] at hok
        simp at hok
      | some su =>
        rw [husr] at hok
        simp only [Except.ok.injEq] at hok
        subst hok
        generalize (match rs.lookup n,
            newConfig.contexts.find? fun ctx => ctx.name == n with
          | some Resolution.replace, some ec =>
            { newConfig with
              contexts := newConfig.contexts.filter fun ctx => ctx.name != n
              clusters := newConfig.clusters.filter fun c => c.name != ec.cluster
              users := newConfig.users.filter fun u => u.name != ec.user }
          | _, _ => newConfig) = cfg1
        generalize resolveNamingConflicts live n sc
          (newConfig.contexts.find? fun ctx => ctx.name == n) (rs.lookup n) = fn
        refine ⟨cfg1.contexts,
          { name := fn.finalContextName, cluster := fn.finalClusterName,
            user := fn.finalUserName, namespace' := sc.namespace' }, ?_, ?_, ?_⟩
        · rw [userStep_contexts, clusterStep_contexts]
          rfl
        · rw [userStep_clusters]
          exact clusterStep_mem (addContextToKubeconfig cfg1 fn sc)
            fn.finalClusterName scl
        · exact userStep_mem
            (if ((addContextToKubeconfig cfg1 fn sc).clusters.find? fun c =>
                c.name == fn.finalClusterName).isSome
             then addContextToKubeconfig cfg1 fn sc
             else { addContextToKubeconfig cfg1 fn sc with
               clusters := (addContextToKubeconfig cfg1 fn sc).clusters ++
                 [{ scl with name := fn.finalClusterName }] })
            fn.finalUserName su
  · intro hfind
    exact ⟨by rw [duplicateContext_doc d dupName saveOk orig hfind], rfl, rfl⟩

/-- Witness for C5 at a concrete import: the appended context of a successful
keep-both import references entries present in the result. -/
theorem engine_created_refs_spec_witness :
    (processContextImport exampleLive exampleLive exampleForeign "ctx"
        [("ctx", Resolution.keepBoth)] = Except.ok
      (importContextsFromFile exampleLive exampleForeign ["ctx"]
        [("ctx", Resolution.keepBoth)] true).doc →
      getContextFromConfig exampleForeign "ctx" =
        some { name := "ctx", cluster := "c2", user := "u2" } →
      ∃ pre newCtx,
        (importContextsFromFile exampleLive exampleForeign ["ctx"]
          [("ctx", Resolution.keepBoth)] true).doc.contexts = pre ++ [newCtx] ∧
        (∃ cl ∈ (importContextsFromFile exampleLive exampleForeign ["ctx"]
          [("ctx", Resolution.keepBoth)] true).doc.clusters,
            cl.name = newCtx.cluster) ∧
        (∃ u ∈ (importContextsFromFile exampleLive exampleForeign ["ctx"]
          [("ctx", Resolution.keepBoth)] true).doc.users, u.name = newCtx.user)) ∧
    ((exampleLive.contexts.find? fun c => c.name == "ctx") =
        some { name := "ctx", cluster := "c1", user := "u1" } →
      (duplicateContext exampleLive "ctx" true).doc.contexts =
        exampleLive.contexts ++
          [duplicatedContextOf { name := "ctx", cluster := "c1", user := "u1" }
            (findNewContextName exampleLive "ctx")] ∧
      (duplicatedContextOf { name := "ctx", cluster := "c1", user := "u1" }
        (findNewContextName exampleLive "ctx")).cluster = "c1" ∧
      (duplicatedContextOf { name := "ctx", cluster := "c1", user := "u1" }
        (findNewContextName exampleLive "ctx")).user = "u1" ) :=
  engine_created_refs_spec exampleLive exampleLive exampleForeign "ctx"
    [("ctx", Resolution.keepBoth)]
    (importContextsFromFile exampleLive exampleForeign ["ctx"]
      [("ctx", Resolution.keepBoth)] true).doc
    { name := "ctx", cluster := "c2", user := "u2" }
    exampleLive "ctx" true { name := "ctx", cluster := "c1", user := "u1" }

/-- C3: evaluation of getImportContexts at its two failure conditions.  At a
missing path and at a failing load the call produces an error that escapes to
the caller; no notification is emitted and no empty list is returned, although
the repository's own tests (and the spec) demand an Error-getting-import-
contexts notification and an empty result in both cases. -/
theorem getImportContexts_failure_behavior :
    getImportContexts exampleDoc "/nonexistent/file" false
        (Except.ok { clusters := [], users := [], contexts := [], currentContext := "" }) =
      Except.error "Kubeconfig file /nonexistent/file does not exist" ∧
    getImportContexts exampleDoc "/path/to/invalid.yaml" true
        (Except.error "Error: Invalid YAML") =
      Except.error "Failed to parse kubeconfig file: Error: Invalid YAML" ∧
    (∀ live filePath loadResult,
      getImportContexts live filePath false loadResult ≠ Except.ok []) := by
  refine ⟨rfl, rfl, fun live filePath loadResult => ?_⟩
  unfold getImportContexts
  simp

/-- C6: evaluation of getImportContexts at an import whose context name exists
in the live document with different credential material (the live user's
token differs from the foreign user's).  The returned candidate carries the
conflict flag but no certificateChanged value at all: the manager never
computes the flag promised by its own doc comment and exercised by the
webview tests, so the flag is not true in the very case the claim requires. -/
theorem getImportContexts_certificate_flag :
    getImportContexts exampleLiveCert "/p" true (Except.ok exampleForeignCert) =
      Except.ok [{ name := "existing-context"
                   cluster := "ec"
                   user := "eu"
                   namespace' := none
                   server := some "https://existing.example.com"
                   hasConflict := true
                   certificateChanged := none }] ∧
    exampleLiveCert.users ≠ exampleForeignCert.users ∧
    (∀ live filePath loadResult cand,
      getImportContexts live filePath true loadResult = Except.ok [cand] →
      cand.certificateChanged = none) := by
  refine ⟨rfl, by decide, fun live filePath loadResult cand h => ?_⟩
  unfold getImportContexts at h
  simp only [Bool.not_true, if_false] at h
  cases loadResult with
  | error e => simp at h
  | ok importConfig =>
    simp only [Except.ok.injEq] at h
    cases hc : importConfig.contexts with
    | nil =>
      rw [hc] at h
      simp at h
    | cons a l =>
      rw [hc] at h
      cases l with
      | nil =>
        simp at h
        rw [← h]
      | cons b l2 => simp at h

end KubeContexts
